import Mathlib

/-!
Verification of the mapnik WKT generator
(src/include/mapnik/util/geometry_wkt_generator.hpp) and the timer
statistics accumulator (src/include/mapnik/timer.hpp).

The generator in the source is a Boost.Spirit.Karma grammar.  The
embedding below translates each karma rule into a Lean function; the
relevant karma combinator semantics are:
  - an alternative `a | b` tries each branch in order, buffering the
    branch's output and discarding it when the branch fails;
  - a sequence `a << b` writes output eagerly, so a failing sequence can
    leave a partial write in the enclosing buffer;
  - a Kleene star `*g` over a container attribute generates `g` for each
    element and always succeeds (in particular on an empty container);
  - a list `a % d` requires at least one element and fails on an empty
    container;
  - a predicate `&g` generates nothing and succeeds iff `g` succeeds.
Machine doubles are modelled as exact rationals (every finite 64-bit
float is a rational) and the coordinate policy as a fixed-point decimal
printer with precision 6 whose trailing fraction zeros are trimmed
(karma real_policies' inherited default trailing_zeros = false).
-/

namespace mapnik

/-- Modelled from the spec: per-vertex command tags (mapnik vertex.hpp is
not under src/).  `SEG_MOVETO` marks the first vertex of a contour,
`SEG_LINETO` continues it; `SEG_END` (0) is the value `get_vertex`
returns when reading past the end of the vertex sequence. -/
def SEG_END : Nat := 0

/-- Modelled from the spec: the MoveTo command tag. -/
def SEG_MOVETO : Nat := 1

/-- Modelled from the spec: the LineTo command tag. -/
def SEG_LINETO : Nat := 2

/-- Modelled from the spec: geometry kind discriminator `Point`
(mapnik geometry.hpp eGeomType is not under src/). -/
def Point : Nat := 1

/-- Modelled from the spec: geometry kind discriminator `LineString`. -/
def LineString : Nat := 2

/-- Modelled from the spec: geometry kind discriminator `Polygon`. -/
def Polygon : Nat := 3

/-- A vertex record: `geometry_type::value_type` in the source is
`boost::tuple<unsigned, double, double>` holding (command, x, y).
Doubles are modelled as exact rationals. -/
structure Vertex where
  cmd : Nat
  x : ℚ
  y : ℚ
deriving DecidableEq

/-- Modelled from the spec: a geometry is a kind discriminator plus an
ordered vertex sequence (mapnik geometry.hpp / vertex_vector are not
under src/; the grammar consumes the geometry through the container
adapter, which yields the vertices in order). -/
structure geometry_type where
  kind : Nat
  vertices : List Vertex
deriving DecidableEq

/-- `get_type` phoenix functor: returns the geometry's kind as an int. -/
def get_type (geom : geometry_type) : Nat := geom.kind

/-- `get_first` phoenix functor: builds the tuple (command, x, y) from
`geom.get_vertex(0, &x, &y)`.  For an empty vertex sequence,
`get_vertex` returns `SEG_END` and leaves the value-initialized
coordinates (0, 0) untouched. -/
def get_first (geom : geometry_type) : Vertex :=
  geom.vertices.headD ⟨SEG_END, 0, 0⟩

/-- Decimal digits, fuel-driven helper: `fuel` bounds the recursion
depth (any `fuel > n` is enough, since `n / 10 < n`). -/
def natDigitsAux (fuel : Nat) (n : Nat) : List Char :=
  match fuel with
  | 0 => []
  | fuel + 1 =>
      if n < 10 then [Nat.digitChar n]
      else natDigitsAux fuel (n / 10) ++ [Nat.digitChar (n % 10)]

/-- Decimal digits of a natural number, most significant first
(the digits the underlying integer formatter emits). -/
def natDigits (n : Nat) : List Char := natDigitsAux (n + 1) n

/-- The 6 fraction digits (with leading zeros) of `fr < 10^6`, as the
fixed-precision fraction formatter emits them. -/
def frac6 (fr : Nat) : List Char :=
  [Nat.digitChar (fr / 100000 % 10), Nat.digitChar (fr / 10000 % 10),
   Nat.digitChar (fr / 1000 % 10), Nat.digitChar (fr / 100 % 10),
   Nat.digitChar (fr / 10 % 10), Nat.digitChar (fr % 10)]

/-- The fraction digits as actually printed: `coordinate_policy`
overrides only `floatfield` and `precision`, so it inherits karma
`real_policies`' default `trailing_zeros = false` — the rounded
6-digit fraction has its trailing zeros trimmed (leading zeros are
kept), and when the whole fraction is zero the unconditional `dot` is
followed by the single residual digit `0`. -/
def fracTrim (fr : Nat) : List Char :=
  let t := ((frac6 fr).reverse.dropWhile (fun c => c == '0')).reverse
  if t = [] then ['0'] else t

/-- `coord_type`: the `karma::real_generator` with `coordinate_policy`,
i.e. fixed-point notation (`floatfield` returns `fixed`) with
`precision` 6 and the inherited default `trailing_zeros = false`.  The
scaled value `s = floor(|q| * 10^6 + 1/2)` models the platform's
fixed-point rounding (the spec leaves the exact rounding rule open);
the integer part is `s / 10^6` and the fraction digits are `s % 10^6`
zero-padded to 6 places and then trimmed of trailing zeros. -/
def coord_type (q : ℚ) : String :=
  let s : Nat := (q.num.natAbs * 1000000 * 2 + q.den) / (2 * q.den)
  (if q < 0 then ("-") else ("")) ++ String.mk (natDigits (s / 1000000))
    ++ (".") ++ String.mk (fracTrim (s % 1000000))

/-- `point_coord` rule: `&uint_ << coord_type << lit(' ') << coord_type`.
The `&uint_` predicate on the command always succeeds and writes
nothing; the two coordinates are written separated by one space. -/
def point_coord (v : Vertex) : String :=
  coord_type v.x ++ (" ") ++ coord_type v.y

/-- `point` rule: `&uint_(mapnik::Point)[_1 = _type(_val)] <<
lit("Point(") << point_coord[_1 = _first(_val)] << lit(')')`.
Result is (success, text written). -/
def point (g : geometry_type) : Bool × String :=
  if get_type g = Point then
    (true, ("Point(") ++ point_coord (get_first g) ++ (")"))
  else (false, "")

/-- The repeated tail of the karma list operator `a % d`, which is
equivalent to `a << *(d << a)`: for each remaining vertex write the
delimiter `,` and then the vertex. -/
def coordsTail : List Vertex → String
  | [] => ""
  | w :: rest => ((",") ++ point_coord w) ++ coordsTail rest

/-- `coords` rule: `point_coord % lit(',')` — the karma list operator
`a % d = a << *(d << a)`: fails on an empty container, otherwise writes
the first vertex and then `,` followed by each subsequent vertex. -/
def coords (vs : List Vertex) : Bool × String :=
  match vs with
  | [] => (false, "")
  | v :: rest => (true, point_coord v ++ coordsTail rest)

/-- `linestring` rule: `&uint_(mapnik::LineString)[...] <<
lit("LineString(") << coords << lit(')')`.  The sequence writes
`LineString(` eagerly, so when `coords` fails (empty container) the
partial text `LineString(` has been written into the enclosing
alternative's buffer and the rule fails. -/
def linestring (g : geometry_type) : Bool × String :=
  if get_type g = LineString then
    match coords g.vertices with
    | (true, s) => (true, ("LineString(") ++ s ++ (")"))
    | (false, s) => (false, ("LineString(") ++ s)
  else (false, "")

/-- `polygon_coord` rule with inherited ring counter `_r1`:
`(&uint_(mapnik::SEG_MOVETO) << eps[_r1 += 1] <<
karma::string[if_(_r1 > 1)[_1 = "),("].else_[_1 = "("]]
 | &uint_ << ",") << coord_type << lit(' ') << coord_type`.
Returns the updated counter and the text written; it succeeds on every
vertex (the second branch accepts any command). -/
def polygon_coord (r : Nat) (v : Vertex) : Nat × String :=
  if v.cmd = SEG_MOVETO then
    (r + 1, (if r + 1 > 1 then ("),(") else ("(")) ++ point_coord v)
  else
    (r, (",") ++ point_coord v)

/-- `coords2` rule: `*polygon_coord(_a)` — Kleene star threading the
local ring counter `_a` (value-initialized to 0 at each rule
invocation) through the vertex sequence; it always succeeds. -/
def coords2 : Nat → List Vertex → Nat × String
  | r, [] => (r, "")
  | r, v :: rest =>
      let p := polygon_coord r v
      let q := coords2 p.1 rest
      (q.1, p.2 ++ q.2)

/-- `polygon` rule: `&uint_(mapnik::Polygon)[...] << lit("Polygon(") <<
coords2 << lit("))")`.  Since `coords2` always succeeds, the rule
succeeds whenever the kind matches. -/
def polygon (g : geometry_type) : Bool × String :=
  if get_type g = Polygon then
    (true, ("Polygon(") ++ (coords2 0 g.vertices).2 ++ ("))"))
  else (false, "")

/-- `wkt` rule: `point | linestring | polygon`.  Karma alternatives
buffer each branch and discard the buffer when the branch fails, so a
failing branch contributes nothing to the output. -/
def wkt (g : geometry_type) : Bool × String :=
  if (point g).1 then (true, (point g).2)
  else if (linestring g).1 then (true, (linestring g).2)
  else if (polygon g).1 then (true, (polygon g).2)
  else (false, "")

/-- The `generate(geometry)` entry point: runs the grammar and yields
the output string on success, nothing on failure. -/
def generate (g : geometry_type) : Option String :=
  if (wkt g).1 then some (wkt g).2 else none

/-- Spec-side rendering of the polygon body, following the spec's words
(§4.4): at the first `MoveTo` emit `(`, at every subsequent `MoveTo`
emit `),(`, before every other vertex emit `,`, then the vertex's
coordinates, in stream order.  `seen` counts the `MoveTo` markers
already processed. -/
def specRingBody : Nat → List Vertex → String
  | _, [] => ""
  | seen, v :: rest =>
      if v.cmd = SEG_MOVETO then
        ((if seen = 0 then ("(") else ("),(")) ++ point_coord v)
          ++ specRingBody (seen + 1) rest
      else ((",") ++ point_coord v) ++ specRingBody seen rest

/-- Spec-side comma-joining of a list of strings (§4.3:
"comma-joined list ... in vertex order"). -/
def commaJoined : List String → String
  | [] => ""
  | [x] => x
  | x :: y :: rest => x ++ (",") ++ commaJoined (y :: rest)

/-- Number of vertices tagged `MoveTo` (the spec's ring count). -/
def moveCount : List Vertex → Nat
  | [] => 0
  | v :: rest => (if v.cmd = SEG_MOVETO then 1 else 0) + moveCount rest

/-- Number of (possibly overlapping) occurrences of `pat` as a
contiguous sublist of `l`. -/
def countSubstr (pat : List Char) : List Char → Nat
  | [] => 0
  | c :: rest => (if pat.isPrefixOf (c :: rest) then 1 else 0) + countSubstr pat rest

/-- The ring separator `),(` as a character list. -/
def ringSep : List Char := [')', ',', '(']

section TimerStats

/-- `timer_metrics` (timer.hpp): accumulated CPU and wall-clock time for
one metric name; doubles modelled as rationals. -/
structure timer_metrics where
  cpu_elapsed : ℚ
  wall_clock_elapsed : ℚ
deriving DecidableEq

/-- Lookup in the modelled `unordered_map<string, timer_metrics>`. -/
def mapFind : List (String × timer_metrics) → String → Option timer_metrics
  | [], _ => none
  | (k, v) :: rest, key => if k = key then some v else mapFind rest key

/-- Store into the modelled map (`operator[]` assignment): replaces the
entry for `key` if present, appends it otherwise. -/
def mapStore : List (String × timer_metrics) → String → timer_metrics → List (String × timer_metrics)
  | [], key, v => [(key, v)]
  | (k, w) :: rest, key, v =>
      if k = key then (k, v) :: rest else (k, w) :: mapStore rest key v

/-- `timer_stats_::add` (timer.hpp lines 72-80): reads the current
metrics for `metric_name` through `operator[]` (which value-initializes
a zero entry for a name never seen before), adds the new durations, and
stores the result back. -/
def timer_stats_add (st : List (String × timer_metrics)) (metric_name : String)
    (cpu_elapsed wall_clock_elapsed : ℚ) : List (String × timer_metrics) :=
  let metrics := (mapFind st metric_name).getD ⟨0, 0⟩
  mapStore st metric_name
    ⟨metrics.cpu_elapsed + cpu_elapsed, metrics.wall_clock_elapsed + wall_clock_elapsed⟩

/-- Run a sequence of `add(name, cpu, wall)` calls on an initially empty
accumulator. -/
def runAdds (calls : List (String × ℚ × ℚ)) : List (String × timer_metrics) :=
  calls.foldl (fun st c => timer_stats_add st c.1 c.2.1 c.2.2) []

/-- The metrics stored for `name` (zero for a name never seen before,
matching `operator[]` value-initialization). -/
def getMetrics (st : List (String × timer_metrics)) (name : String) : timer_metrics :=
  (mapFind st name).getD ⟨0, 0⟩

/-- Sum of the cpu durations passed for `name` across a call sequence. -/
def cpuSum (name : String) (calls : List (String × ℚ × ℚ)) : ℚ :=
  ((calls.filter (fun c => c.1 == name)).map (fun c => c.2.1)).sum

/-- Sum of the wall-clock durations passed for `name` across a call
sequence. -/
def wallSum (name : String) (calls : List (String × ℚ × ℚ)) : ℚ :=
  ((calls.filter (fun c => c.1 == name)).map (fun c => c.2.2)).sum

end TimerStats

/-! Helper lemmas: characters of formatted coordinates. -/

theorem str_data_append (a b : String) : (a ++ b).data = a.data ++ b.data := rfl

theorem str_ext {a b : String} (h : a.data = b.data) : a = b := by
  cases a; cases b; cases h; rfl

theorem digitChar_isDigit {m : Nat} (h : m < 10) : (Nat.digitChar m).isDigit = true := by
  interval_cases m <;> rfl

theorem natDigitsAux_isDigit (fuel : Nat) :
    ∀ n, ∀ c ∈ natDigitsAux fuel n, c.isDigit = true := by
  induction fuel with
  | zero => intro n c hc; cases hc
  | succ fuel ih =>
    intro n c hc
    rw [natDigitsAux] at hc
    split at hc
    next h =>
      have hc' : c = Nat.digitChar n := by simpa using hc
      subst hc'
      exact digitChar_isDigit h
    next h =>
      rcases List.mem_append.mp hc with h1 | h2
      · exact ih (n / 10) c h1
      · have hc' : c = Nat.digitChar (n % 10) := by simpa using h2
        subst hc'
        exact digitChar_isDigit (Nat.mod_lt n (by omega))

theorem natDigits_isDigit (n : Nat) : ∀ c ∈ natDigits n, c.isDigit = true :=
  natDigitsAux_isDigit (n + 1) n

theorem frac6_isDigit (fr : Nat) : ∀ c ∈ frac6 fr, c.isDigit = true := by
  intro c hc
  simp only [frac6, List.mem_cons, List.not_mem_nil, or_false] at hc
  rcases hc with h | h | h | h | h | h <;>
    (subst h; exact digitChar_isDigit (Nat.mod_lt _ (by omega)))

theorem fracTrim_isDigit (fr : Nat) : ∀ c ∈ fracTrim fr, c.isDigit = true := by
  intro c hc
  simp only [fracTrim] at hc
  split at hc
  · have hc' : c = '0' := by simpa using hc
    subst hc'
    decide
  · rw [List.mem_reverse] at hc
    have hc2 : c ∈ (frac6 fr).reverse :=
      (List.dropWhile_sublist (fun c => c == '0')).subset hc
    rw [List.mem_reverse] at hc2
    exact frac6_isDigit fr c hc2

theorem fracTrim_ne_nil (fr : Nat) : fracTrim fr ≠ [] := by
  simp only [fracTrim]
  split
  next => simp
  next h => exact h

theorem fracTrim_length_le (fr : Nat) : (fracTrim fr).length ≤ 6 := by
  simp only [fracTrim]
  split
  next => simp
  next h =>
    rw [List.length_reverse]
    have h2 := (List.dropWhile_sublist (fun c => c == '0')
      (l := (frac6 fr).reverse)).length_le
    have h3 : ((frac6 fr).reverse).length = 6 := by
      rw [List.length_reverse]
      rfl
    omega

theorem dropWhile_head_false (p : Char → Bool) (l : List Char) :
    ∀ c t, l.dropWhile p = c :: t → p c = false := by
  induction l with
  | nil => intro c t h; simp [List.dropWhile] at h
  | cons a l ih =>
    intro c t h
    rw [List.dropWhile_cons] at h
    split at h
    · exact ih c t h
    · next hpa =>
      cases h
      simpa using hpa

theorem fracTrim_trailing (fr : Nat) :
    (fracTrim fr).reverse.head? = some '0' → fracTrim fr = ['0'] := by
  simp only [fracTrim]
  split
  next => intro _; rfl
  next h =>
    intro hh
    exfalso
    rw [List.reverse_reverse] at hh
    cases hdw : (frac6 fr).reverse.dropWhile (fun c => c == '0') with
    | nil => rw [hdw] at hh; cases hh
    | cons c t =>
      rw [hdw] at hh
      have hc : c = '0' := by simpa using hh
      have hfalse := dropWhile_head_false _ _ c t hdw
      rw [hc] at hfalse
      exact absurd hfalse (by decide)

theorem coord_type_chars (q : ℚ) :
    ∀ c ∈ (coord_type q).data, c.isDigit = true ∨ c = '.' ∨ c = '-' := by
  intro c hc
  simp only [coord_type, str_data_append, List.mem_append] at hc
  rcases hc with ((hs | hd) | hp) | hf
  · right; right
    rcases lt_or_ge q 0 with hq | hq
    · simp only [if_pos hq] at hs; simpa using hs
    · rw [if_neg (not_lt.mpr hq)] at hs; simp at hs
  · exact Or.inl (natDigits_isDigit _ c hd)
  · right; left; simpa using hp
  · exact Or.inl (fracTrim_isDigit _ c hf)

theorem point_coord_chars (v : Vertex) :
    ∀ c ∈ (point_coord v).data, c.isDigit = true ∨ c = '.' ∨ c = '-' ∨ c = ' ' := by
  intro c hc
  simp only [point_coord, str_data_append, List.mem_append] at hc
  rcases hc with (hx | hs) | hy
  · rcases coord_type_chars v.x c hx with h | h | h
    · exact Or.inl h
    · exact Or.inr (Or.inl h)
    · exact Or.inr (Or.inr (Or.inl h))
  · right; right; right; simpa using hs
  · rcases coord_type_chars v.y c hy with h | h | h
    · exact Or.inl h
    · exact Or.inr (Or.inl h)
    · exact Or.inr (Or.inr (Or.inl h))

theorem point_coord_no_paren (v : Vertex) :
    ∀ c ∈ (point_coord v).data, c ≠ '(' ∧ c ≠ ')' := by
  intro c hc
  rcases point_coord_chars v c hc with h | h | h | h
  · refine ⟨?_, ?_⟩ <;> (rintro rfl; revert h; decide)
  all_goals (subst h; exact ⟨by decide, by decide⟩)

/-! Helper lemmas: counting separators and parentheses in the output. -/

theorem data_sep : ("),(" : String).data = [')', ',', '('] := rfl

theorem data_open : ("(" : String).data = ['('] := rfl

theorem data_comma : ("," : String).data = [','] := rfl

theorem data_close2 : ("))" : String).data = [')', ')'] := rfl

theorem data_empty : ("" : String).data = [] := rfl

theorem point_coord_count_open (v : Vertex) : ((point_coord v).data).count '(' = 0 :=
  List.count_eq_zero.mpr (fun h => ((point_coord_no_paren v _ h).1 rfl))

theorem point_coord_count_close (v : Vertex) : ((point_coord v).data).count ')' = 0 :=
  List.count_eq_zero.mpr (fun h => ((point_coord_no_paren v _ h).2 rfl))

theorem countSubstr_sep_append (a b : List Char) (h : ∀ c ∈ a, c ≠ ')') :
    countSubstr ringSep (a ++ b) = countSubstr ringSep b := by
  induction a with
  | nil => rfl
  | cons c rest ih =>
    have hc : (')' == c) = false :=
      beq_eq_false_iff_ne.mpr (Ne.symm (h c (List.mem_cons_self c rest)))
    have hpre : ringSep.isPrefixOf (c :: (rest ++ b)) = false := by
      show (((')' == c) && List.isPrefixOf [',', '('] (rest ++ b))) = false
      rw [hc, Bool.false_and]
    rw [List.cons_append]
    show (if ringSep.isPrefixOf (c :: (rest ++ b)) then 1 else 0)
        + countSubstr ringSep (rest ++ b) = countSubstr ringSep b
    rw [hpre, if_neg (by simp), ih (fun c hc => h c (List.mem_cons_of_mem _ hc))]
    omega

theorem countSubstr_sep_marker (t : List Char) :
    countSubstr ringSep (')' :: ',' :: '(' :: t) = 1 + countSubstr ringSep t := by
  show (if ringSep.isPrefixOf (')' :: ',' :: '(' :: t) then 1 else 0)
      + ((if ringSep.isPrefixOf (',' :: '(' :: t) then 1 else 0)
        + ((if ringSep.isPrefixOf ('(' :: t) then 1 else 0) + countSubstr ringSep t))
      = 1 + countSubstr ringSep t
  have h1 : ringSep.isPrefixOf (')' :: ',' :: '(' :: t) = true := by
    simp [ringSep, List.isPrefixOf]
  have h2 : ringSep.isPrefixOf (',' :: '(' :: t) = false := by
    simp [ringSep, List.isPrefixOf]
  have h3 : ringSep.isPrefixOf ('(' :: t) = false := by
    simp [ringSep, List.isPrefixOf]
  rw [h1, h2, h3]
  simp

theorem countSubstr_body_pos (vs : List Vertex) :
    ∀ r, 1 ≤ r →
      countSubstr ringSep ((specRingBody r vs).data ++ [')', ')']) = moveCount vs := by
  induction vs with
  | nil =>
    intro r hr
    rw [specRingBody, data_empty, List.nil_append]
    decide
  | cons v vs ih =>
    intro r hr
    by_cases hv : v.cmd = SEG_MOVETO
    · rw [specRingBody, if_pos hv, if_neg (by omega : ¬ r = 0),
        str_data_append, str_data_append, data_sep, moveCount, if_pos hv]
      simp only [List.append_assoc, List.cons_append, List.nil_append]
      rw [countSubstr_sep_marker,
        countSubstr_sep_append (point_coord v).data _
          (fun c hc => (point_coord_no_paren v c hc).2),
        ih (r + 1) (by omega)]
    · rw [specRingBody, if_neg hv, str_data_append, str_data_append, data_comma,
        moveCount, if_neg hv]
      simp only [List.append_assoc, List.cons_append, List.nil_append]
      rw [show (',' :: ((point_coord v).data
            ++ ((specRingBody r vs).data ++ [')', ')'])))
          = ((',' :: (point_coord v).data)
            ++ ((specRingBody r vs).data ++ [')', ')'])) from rfl,
        countSubstr_sep_append _ _ (by
          intro c hc
          rcases List.mem_cons.mp hc with rfl | hc
          · decide
          · exact (point_coord_no_paren v c hc).2),
        ih r hr]
      omega

theorem countSubstr_body_zero (vs : List Vertex) :
    countSubstr ringSep ((specRingBody 0 vs).data ++ [')', ')']) = moveCount vs - 1 := by
  induction vs with
  | nil =>
    rw [specRingBody, data_empty, List.nil_append]
    decide
  | cons v vs ih =>
    by_cases hv : v.cmd = SEG_MOVETO
    · rw [specRingBody, if_pos hv, if_pos rfl,
        str_data_append, str_data_append, data_open, moveCount, if_pos hv]
      simp only [List.append_assoc, List.cons_append, List.nil_append]
      rw [show ('(' :: ((point_coord v).data
            ++ ((specRingBody 1 vs).data ++ [')', ')'])))
          = (('(' :: (point_coord v).data)
            ++ ((specRingBody 1 vs).data ++ [')', ')'])) from rfl,
        countSubstr_sep_append _ _ (by
          intro c hc
          rcases List.mem_cons.mp hc with rfl | hc
          · decide
          · exact (point_coord_no_paren v c hc).2),
        countSubstr_body_pos vs 1 (by omega)]
      omega
    · rw [specRingBody, if_neg hv, str_data_append, str_data_append, data_comma,
        moveCount, if_neg hv]
      simp only [List.append_assoc, List.cons_append, List.nil_append]
      rw [show (',' :: ((point_coord v).data
            ++ ((specRingBody 0 vs).data ++ [')', ')'])))
          = ((',' :: (point_coord v).data)
            ++ ((specRingBody 0 vs).data ++ [')', ')'])) from rfl,
        countSubstr_sep_append _ _ (by
          intro c hc
          rcases List.mem_cons.mp hc with rfl | hc
          · decide
          · exact (point_coord_no_paren v c hc).2),
        ih]
      omega

theorem count_open_body (vs : List Vertex) :
    ∀ r, ((specRingBody r vs).data).count '(' = moveCount vs := by
  induction vs with
  | nil => intro r; rw [specRingBody, data_empty, moveCount]; rfl
  | cons v vs ih =>
    intro r
    by_cases hv : v.cmd = SEG_MOVETO
    · rw [specRingBody, if_pos hv, str_data_append, str_data_append,
        moveCount, if_pos hv]
      rw [List.count_append, List.count_append, point_coord_count_open, ih]
      by_cases hr : r = 0
      · rw [if_pos hr, data_open]; simp
      · rw [if_neg hr, data_sep]; simp
    · rw [specRingBody, if_neg hv, str_data_append, str_data_append, data_comma,
        moveCount, if_neg hv]
      rw [List.count_append, List.count_append, point_coord_count_open, ih]
      simp

theorem count_close_body (vs : List Vertex) :
    ∀ r, ((specRingBody r vs).data).count ')'
      = if r = 0 then moveCount vs - 1 else moveCount vs := by
  induction vs with
  | nil =>
    intro r
    rw [specRingBody, data_empty, moveCount]
    by_cases hr : r = 0 <;> simp [hr]
  | cons v vs ih =>
    intro r
    by_cases hv : v.cmd = SEG_MOVETO
    · rw [specRingBody, if_pos hv, str_data_append, str_data_append,
        moveCount, if_pos hv]
      rw [List.count_append, List.count_append, point_coord_count_close, ih]
      by_cases hr : r = 0
      · rw [if_pos hr, if_pos hr, data_open, if_neg (by omega : ¬ r + 1 = 0)]
        simp
      · rw [if_neg hr, if_neg hr, data_sep, if_neg (by omega : ¬ r + 1 = 0)]
        simp [Nat.add_comm]
    · rw [specRingBody, if_neg hv, str_data_append, str_data_append, data_comma,
        moveCount, if_neg hv]
      rw [List.count_append, List.count_append, point_coord_count_close, ih]
      by_cases hr : r = 0 <;> simp [hr]

/-! Helper lemmas: grammar rules versus spec-side renderings, and
success conditions of the three rules. -/

theorem str_append_assoc (a b c : String) : (a ++ b) ++ c = a ++ (b ++ c) :=
  str_ext (by simp only [str_data_append, List.append_assoc])

theorem str_append_empty (s : String) : s ++ ("") = s :=
  str_ext (by simp only [str_data_append, data_empty, List.append_nil])

theorem coords2_eq_specRingBody (vs : List Vertex) :
    ∀ r, (coords2 r vs).2 = specRingBody r vs := by
  induction vs with
  | nil => intro r; rfl
  | cons v vs ih =>
    intro r
    by_cases hv : v.cmd = SEG_MOVETO
    · by_cases hr : r = 0
      · simp [coords2, polygon_coord, specRingBody, hv, hr, ih]
      · have h1 : r + 1 > 1 := by omega
        simp [coords2, polygon_coord, specRingBody, hv, hr, h1, ih]
    · simp [coords2, polygon_coord, specRingBody, hv, ih]

theorem coords_eq_commaJoined (vs : List Vertex) :
    ∀ v, (coords (v :: vs)).2 = commaJoined ((v :: vs).map point_coord) := by
  induction vs with
  | nil =>
    intro v
    show point_coord v ++ coordsTail [] = commaJoined [point_coord v]
    rw [coordsTail, commaJoined, str_append_empty]
  | cons w vs ih =>
    intro v
    show point_coord v ++ coordsTail (w :: vs)
        = commaJoined (point_coord v :: point_coord w :: List.map point_coord vs)
    have hcj : commaJoined (point_coord v :: point_coord w :: List.map point_coord vs)
        = (point_coord v ++ (",")) ++ commaJoined (point_coord w :: List.map point_coord vs) := rfl
    have hw : point_coord w ++ coordsTail vs
        = commaJoined (point_coord w :: List.map point_coord vs) := ih w
    rw [hcj, ← hw, coordsTail, str_append_assoc, str_append_assoc]

theorem point_succ_iff (g : geometry_type) : (point g).1 = true ↔ g.kind = Point := by
  by_cases h : g.kind = Point <;> simp [point, get_type, h]

theorem linestring_succ_iff (g : geometry_type) :
    (linestring g).1 = true ↔ g.kind = LineString ∧ g.vertices ≠ [] := by
  by_cases h : g.kind = LineString
  · cases hv : g.vertices with
    | nil => simp [linestring, get_type, h, coords, hv]
    | cons v rest => simp [linestring, get_type, h, coords, hv]
  · simp [linestring, get_type, h]

theorem polygon_succ_iff (g : geometry_type) : (polygon g).1 = true ↔ g.kind = Polygon := by
  by_cases h : g.kind = Polygon <;> simp [polygon, get_type, h]

theorem generate_point_eq (g : geometry_type) (hk : g.kind = Point) :
    generate g = some (("Point(") ++ point_coord (get_first g) ++ (")")) := by
  simp [generate, wkt, point, get_type, hk]

theorem generate_linestring_eq (g : geometry_type) (hk : g.kind = LineString)
    (hv : g.vertices ≠ []) :
    generate g = some (("LineString(") ++ (coords g.vertices).2 ++ (")")) := by
  have hp : (point g).1 = false := by
    simp [point, get_type, hk, Point, LineString]
  cases hcs : g.vertices with
  | nil => exact absurd hcs hv
  | cons v rest =>
    have hl : linestring g = (true, ("LineString(") ++ (coords g.vertices).2 ++ (")")) := by
      simp [linestring, get_type, hk, hcs, coords]
    simp [generate, wkt, hp, hl, hcs]

theorem generate_polygon_eq (g : geometry_type) (hk : g.kind = Polygon) :
    generate g = some (("Polygon(") ++ (coords2 0 g.vertices).2 ++ ("))")) := by
  have hp : (point g).1 = false := by
    simp [point, get_type, hk, Point, Polygon]
  have hl : (linestring g).1 = false := by
    by_cases hv : g.vertices = []
    · simp [linestring, get_type, hk, LineString, Polygon]
    · simp [linestring, get_type, hk, LineString, Polygon]
  simp [generate, wkt, hp, hl, polygon, get_type, hk]

/-! Helper lemmas: the timer statistics accumulator. -/

theorem mapFind_store_eq (st : List (String × timer_metrics)) (key : String)
    (v : timer_metrics) : mapFind (mapStore st key v) key = some v := by
  induction st with
  | nil => simp [mapStore, mapFind]
  | cons p rest ih =>
    rcases p with ⟨k, w⟩
    by_cases h : k = key
    · simp [mapStore, h, mapFind]
    · simp [mapStore, h, mapFind, ih]

theorem mapFind_store_ne (st : List (String × timer_metrics)) (key k : String)
    (v : timer_metrics) (h : k ≠ key) :
    mapFind (mapStore st key v) k = mapFind st k := by
  induction st with
  | nil => simp [mapStore, mapFind, Ne.symm h]
  | cons p rest ih =>
    rcases p with ⟨k', w⟩
    by_cases h' : k' = key
    · subst h'
      simp [mapStore, mapFind, Ne.symm h]
    · by_cases h'' : k' = k
      · subst h''
        simp [mapStore, h', mapFind]
      · simp [mapStore, h', mapFind, h'', ih]

theorem getMetrics_add_same (st : List (String × timer_metrics)) (name : String)
    (c w : ℚ) :
    getMetrics (timer_stats_add st name c w) name
      = ⟨(getMetrics st name).cpu_elapsed + c, (getMetrics st name).wall_clock_elapsed + w⟩ := by
  simp [getMetrics, timer_stats_add, mapFind_store_eq]

theorem mapFind_add_ne (st : List (String × timer_metrics)) (name k : String)
    (c w : ℚ) (h : k ≠ name) :
    mapFind (timer_stats_add st name c w) k = mapFind st k := by
  simp [timer_stats_add, mapFind_store_ne _ _ _ _ h]

theorem cpuSum_cons (name : String) (c : String × ℚ × ℚ) (rest : List (String × ℚ × ℚ)) :
    cpuSum name (c :: rest)
      = (if c.1 = name then c.2.1 else 0) + cpuSum name rest := by
  by_cases h : c.1 = name <;> simp [cpuSum, List.filter_cons, h]

theorem wallSum_cons (name : String) (c : String × ℚ × ℚ) (rest : List (String × ℚ × ℚ)) :
    wallSum name (c :: rest)
      = (if c.1 = name then c.2.2 else 0) + wallSum name rest := by
  by_cases h : c.1 = name <;> simp [wallSum, List.filter_cons, h]

theorem runAdds_loop (calls : List (String × ℚ × ℚ)) :
    ∀ st name,
      getMetrics (calls.foldl (fun st c => timer_stats_add st c.1 c.2.1 c.2.2) st) name
        = ⟨(getMetrics st name).cpu_elapsed + cpuSum name calls,
           (getMetrics st name).wall_clock_elapsed + wallSum name calls⟩ := by
  induction calls with
  | nil => intro st name; simp [cpuSum, wallSum]
  | cons c rest ih =>
    intro st name
    rw [List.foldl_cons, ih, cpuSum_cons, wallSum_cons]
    by_cases h : c.1 = name
    · rw [if_pos h, if_pos h, h, getMetrics_add_same st name c.2.1 c.2.2]
      simp [add_assoc]
    · rw [if_neg h, if_neg h]
      have hg : getMetrics (timer_stats_add st c.1 c.2.1 c.2.2) name = getMetrics st name := by
        simp [getMetrics, mapFind_add_ne _ _ _ _ _ (fun he => h he.symm)]
      rw [hg]
      simp

/-! Remaining small helpers for the claim theorems. -/

theorem data_dash : ("-" : String).data = ['-'] := rfl

theorem data_polyopen : ("Polygon(" : String).data
    = ['P', 'o', 'l', 'y', 'g', 'o', 'n', '('] := rfl

theorem data_polyopenComma : ("Polygon(," : String).data
    = ['P', 'o', 'l', 'y', 'g', 'o', 'n', '(', ','] := rfl

theorem count_zero_of_isDigit (ch : Char) (l : List Char)
    (hch : ch.isDigit = false) (h : ∀ c ∈ l, c.isDigit = true) :
    l.count ch = 0 :=
  List.count_eq_zero.mpr (fun hm => by rw [h ch hm] at hch; cases hch)

theorem coord_count_zero (q : ℚ) (ch : Char) (h1 : ch.isDigit = false)
    (h2 : ch ≠ '.') (h3 : ch ≠ '-') : ((coord_type q).data).count ch = 0 :=
  List.count_eq_zero.mpr (fun hm => by
    rcases coord_type_chars q ch hm with h | h | h
    · rw [h] at h1; cases h1
    · exact h2 h
    · exact h3 h)

theorem polygon_prefix_no_close : ∀ c ∈ ("Polygon(" : String).data, c ≠ ')' := by
  decide

/-! The claim theorems. -/

/-- Claim C1 (code bug): contrary to the spec, `generate` on a Polygon
with zero vertices does not fail with `EmptyGeometry` and does not
withhold output: the Kleene star of `coords2` succeeds on the empty
vertex sequence, so the `polygon` rule succeeds and the call emits
exactly the malformed string `Polygon())`. -/
theorem generate_empty_polygon_emits_output :
    generate (⟨Polygon, []⟩ : geometry_type) = some ("Polygon())") := by
  decide

/-- Claim C2: whenever `generate` fails, nothing has been written to
the output destination — the grammar's top-level alternative discards
the buffered text of every failing branch, so the sink text is empty
and no partial fragment (such as a bare `LineString(` prefix) is ever
visible to the caller. -/
theorem generate_fail_no_output (g : geometry_type)
    (h : generate g = none) : wkt g = (false, "") := by
  by_cases hp : (point g).1
  · simp [generate, wkt, hp] at h
  · by_cases hl : (linestring g).1
    · simp [generate, wkt, hp, hl] at h
    · by_cases hpo : (polygon g).1
      · simp [generate, wkt, hp, hl, hpo] at h
      · simp [wkt, hp, hl, hpo]

/-- Claim C2 witness: the empty LineString fails; the `linestring`
sub-rule had written the partial text `LineString(` into its buffer,
yet the grammar's sink receives nothing. -/
theorem generate_fail_no_output_witness :
    generate (⟨LineString, []⟩ : geometry_type) = none
      ∧ linestring (⟨LineString, []⟩ : geometry_type) = (false, ("LineString("))
      ∧ wkt (⟨LineString, []⟩ : geometry_type) = (false, ("")) :=
  ⟨by decide, by decide, generate_fail_no_output _ (by decide)⟩

/-- Claim C5: the three generation rules are selected by the kind
discriminator and are mutually exclusive — at most one of them can
succeed on any geometry — and a geometry whose kind lies outside the
closed set containing Point, LineString and Polygon makes every rule
fail, so `generate` fails and emits no output. -/
theorem dispatch_exclusive_and_unsupported (g : geometry_type) :
    ((point g).1 = true → (linestring g).1 = false ∧ (polygon g).1 = false)
      ∧ ((linestring g).1 = true → (point g).1 = false ∧ (polygon g).1 = false)
      ∧ ((polygon g).1 = true → (point g).1 = false ∧ (linestring g).1 = false)
      ∧ (g.kind ≠ Point → g.kind ≠ LineString → g.kind ≠ Polygon →
          generate g = none ∧ wkt g = (false, "")) := by
  refine ⟨?_, ?_, ?_, ?_⟩
  · intro hp
    have hk := (point_succ_iff g).mp hp
    constructor
    · rw [Bool.eq_false_iff]
      intro hl
      have h2 := ((linestring_succ_iff g).mp hl).1
      rw [hk] at h2
      exact absurd h2 (by decide)
    · rw [Bool.eq_false_iff]
      intro hpo
      have h2 := (polygon_succ_iff g).mp hpo
      rw [hk] at h2
      exact absurd h2 (by decide)
  · intro hl
    have hk := ((linestring_succ_iff g).mp hl).1
    constructor
    · rw [Bool.eq_false_iff]
      intro hp
      have h2 := (point_succ_iff g).mp hp
      rw [hk] at h2
      exact absurd h2 (by decide)
    · rw [Bool.eq_false_iff]
      intro hpo
      have h2 := (polygon_succ_iff g).mp hpo
      rw [hk] at h2
      exact absurd h2 (by decide)
  · intro hpo
    have hk := (polygon_succ_iff g).mp hpo
    constructor
    · rw [Bool.eq_false_iff]
      intro hp
      have h2 := (point_succ_iff g).mp hp
      rw [hk] at h2
      exact absurd h2 (by decide)
    · rw [Bool.eq_false_iff]
      intro hl
      have h2 := ((linestring_succ_iff g).mp hl).1
      rw [hk] at h2
      exact absurd h2 (by decide)
  · intro h1 h2 h3
    have hp : (point g).1 = false := by
      rw [Bool.eq_false_iff]
      intro hp
      exact h1 ((point_succ_iff g).mp hp)
    have hl : (linestring g).1 = false := by
      rw [Bool.eq_false_iff]
      intro hl
      exact h2 (((linestring_succ_iff g).mp hl).1)
    have hpo : (polygon g).1 = false := by
      rw [Bool.eq_false_iff]
      intro hpo
      exact h3 ((polygon_succ_iff g).mp hpo)
    constructor
    · simp [generate, wkt, hp, hl, hpo]
    · simp [wkt, hp, hl, hpo]

/-- Claim C5 witness: applied at a Polygon (only the polygon rule
succeeds) and at a geometry with the unsupported kind 7 (no output). -/
theorem dispatch_exclusive_and_unsupported_witness :
    (polygon (⟨Polygon, []⟩ : geometry_type)).1 = true
      ∧ ((point (⟨Polygon, []⟩ : geometry_type)).1 = false
          ∧ (linestring (⟨Polygon, []⟩ : geometry_type)).1 = false)
      ∧ ((7 : Nat) ≠ Point ∧ (7 : Nat) ≠ LineString ∧ (7 : Nat) ≠ Polygon)
      ∧ (generate (⟨7, []⟩ : geometry_type) = none
          ∧ wkt (⟨7, []⟩ : geometry_type) = (false, "")) :=
  ⟨by decide,
   (dispatch_exclusive_and_unsupported (⟨Polygon, []⟩ : geometry_type)).2.2.1 (by decide),
   ⟨by decide, by decide, by decide⟩,
   (dispatch_exclusive_and_unsupported (⟨7, []⟩ : geometry_type)).2.2.2
     (by decide) (by decide) (by decide)⟩

/-- Claim C7 (amended): a Point geometry with exactly one vertex
generates `Point(` + formatted x + one space + formatted y + `)`, with
no other whitespace (the space count of the whole output is 1); in
particular the point (1.5, -2.25) (the rational 3/2, -9/4) yields
`Point(1.5 -2.25)` — the trailing fraction zeros of the claim's
six-digit example are trimmed by the formatter. -/
theorem point_output :
    (∀ c : Nat, ∀ x y : ℚ,
        generate (⟨Point, [⟨c, x, y⟩]⟩ : geometry_type)
            = some (("Point(") ++ coord_type x ++ (" ") ++ coord_type y ++ (")"))
          ∧ ((("Point(") ++ coord_type x ++ (" ") ++ coord_type y ++ (")")).data).count ' ' = 1)
      ∧ generate (⟨Point, [⟨SEG_MOVETO, mkRat 3 2, mkRat (-9) 4⟩]⟩ : geometry_type)
          = some ("Point(1.5 -2.25)") := by
  constructor
  · intro c x y
    constructor
    · rw [generate_point_eq (⟨Point, [⟨c, x, y⟩]⟩ : geometry_type) rfl]
      have hf : get_first (⟨Point, [⟨c, x, y⟩]⟩ : geometry_type) = ⟨c, x, y⟩ := rfl
      rw [hf]
      have he : ("Point(") ++ point_coord ⟨c, x, y⟩ ++ (")")
          = ("Point(") ++ coord_type x ++ (" ") ++ coord_type y ++ (")") :=
        str_ext (by simp [point_coord, str_data_append, List.append_assoc])
      rw [he]
    · simp only [str_data_append, List.count_append]
      rw [coord_count_zero x ' ' (by decide) (by decide) (by decide),
        coord_count_zero y ' ' (by decide) (by decide) (by decide)]
      decide
  · decide

/-- Claim C10: a Point geometry with more than one vertex succeeds and
produces exactly the output of the Point containing only vertex 0
(`get_first` reads only the vertex at index 0); all further vertices
are ignored. -/
theorem point_ignores_extra_vertices (v w : Vertex) (rest : List Vertex) :
    generate (⟨Point, v :: w :: rest⟩ : geometry_type)
        = generate (⟨Point, [v]⟩ : geometry_type)
      ∧ generate (⟨Point, v :: w :: rest⟩ : geometry_type)
        = some (("Point(") ++ point_coord v ++ (")")) := by
  have h1 := generate_point_eq (⟨Point, v :: w :: rest⟩ : geometry_type) rfl
  have h2 := generate_point_eq (⟨Point, [v]⟩ : geometry_type) rfl
  have hf1 : get_first (⟨Point, v :: w :: rest⟩ : geometry_type) = v := rfl
  have hf2 : get_first (⟨Point, [v]⟩ : geometry_type) = v := rfl
  rw [hf1] at h1
  rw [hf2] at h2
  exact ⟨h1.trans h2.symm, h1⟩

/-- Claim C3: for a Polygon whose vertex stream carries n ≥ 1 MoveTo
markers, the output is `Polygon(` ++ body ++ `))` where the body is the
ring-tracker rendering described by the spec (`(` at the first MoveTo,
`),(` at every subsequent MoveTo, `,` before every other vertex, then
the vertex's coordinates, in stream order); the whole output contains
exactly n-1 occurrences of the separator `),(`, the body contains
exactly n opening parentheses (so exactly one ring-opening `(` beyond
the n-1 separators), the whole output has n+1 opening and n+1 closing
parentheses, and it ends with `))`. -/
theorem polygon_ring_structure (g : geometry_type) (hk : g.kind = Polygon)
    (hn : 1 ≤ moveCount g.vertices) :
    ∃ s, generate g = some s
      ∧ s = ("Polygon(") ++ specRingBody 0 g.vertices ++ ("))")
      ∧ countSubstr ringSep s.data = moveCount g.vertices - 1
      ∧ ((specRingBody 0 g.vertices).data).count '(' = moveCount g.vertices
      ∧ (s.data).count '(' = moveCount g.vertices + 1
      ∧ (s.data).count ')' = moveCount g.vertices + 1 := by
  refine ⟨("Polygon(") ++ specRingBody 0 g.vertices ++ ("))"), ?_, rfl, ?_, ?_, ?_, ?_⟩
  · rw [generate_polygon_eq g hk, coords2_eq_specRingBody]
  · rw [str_data_append, str_data_append, data_close2, List.append_assoc,
      countSubstr_sep_append _ _ polygon_prefix_no_close]
    exact countSubstr_body_zero g.vertices
  · exact count_open_body g.vertices 0
  · rw [str_data_append, str_data_append, data_close2, List.count_append,
      List.count_append, count_open_body g.vertices 0]
    have h1 : (("Polygon(" : String).data).count '(' = 1 := by decide
    have h2 : ([')', ')'] : List Char).count '(' = 0 := by decide
    rw [h1, h2]
    omega
  · rw [str_data_append, str_data_append, data_close2, List.count_append,
      List.count_append, count_close_body g.vertices 0, if_pos rfl]
    have h1 : (("Polygon(" : String).data).count ')' = 0 := by decide
    have h2 : ([')', ')'] : List Char).count ')' = 2 := by decide
    rw [h1, h2]
    omega

/-- Claim C3 witness: a Polygon with two rings (two MoveTo markers):
exactly one `),(` separator, three opening and three closing
parentheses overall, and the expected concrete WKT string. -/
theorem polygon_ring_structure_witness :
    (⟨Polygon, [⟨SEG_MOVETO, mkRat 0 1, mkRat 0 1⟩, ⟨SEG_LINETO, mkRat 4 1, mkRat 0 1⟩,
        ⟨SEG_MOVETO, mkRat 1 1, mkRat 1 1⟩, ⟨SEG_LINETO, mkRat 2 1, mkRat 1 1⟩]⟩
      : geometry_type).kind = Polygon
    ∧ 1 ≤ moveCount [⟨SEG_MOVETO, mkRat 0 1, mkRat 0 1⟩, ⟨SEG_LINETO, mkRat 4 1, mkRat 0 1⟩,
        ⟨SEG_MOVETO, mkRat 1 1, mkRat 1 1⟩, ⟨SEG_LINETO, mkRat 2 1, mkRat 1 1⟩]
    ∧ (∃ s, generate (⟨Polygon, [⟨SEG_MOVETO, mkRat 0 1, mkRat 0 1⟩,
          ⟨SEG_LINETO, mkRat 4 1, mkRat 0 1⟩, ⟨SEG_MOVETO, mkRat 1 1, mkRat 1 1⟩,
          ⟨SEG_LINETO, mkRat 2 1, mkRat 1 1⟩]⟩ : geometry_type) = some s
        ∧ s = ("Polygon(") ++ specRingBody 0 [⟨SEG_MOVETO, mkRat 0 1, mkRat 0 1⟩,
            ⟨SEG_LINETO, mkRat 4 1, mkRat 0 1⟩, ⟨SEG_MOVETO, mkRat 1 1, mkRat 1 1⟩,
            ⟨SEG_LINETO, mkRat 2 1, mkRat 1 1⟩] ++ ("))")
        ∧ countSubstr ringSep s.data = moveCount [⟨SEG_MOVETO, mkRat 0 1, mkRat 0 1⟩,
            ⟨SEG_LINETO, mkRat 4 1, mkRat 0 1⟩, ⟨SEG_MOVETO, mkRat 1 1, mkRat 1 1⟩,
            ⟨SEG_LINETO, mkRat 2 1, mkRat 1 1⟩] - 1
        ∧ ((specRingBody 0 [⟨SEG_MOVETO, mkRat 0 1, mkRat 0 1⟩,
            ⟨SEG_LINETO, mkRat 4 1, mkRat 0 1⟩, ⟨SEG_MOVETO, mkRat 1 1, mkRat 1 1⟩,
            ⟨SEG_LINETO, mkRat 2 1, mkRat 1 1⟩]).data).count '('
          = moveCount [⟨SEG_MOVETO, mkRat 0 1, mkRat 0 1⟩,
            ⟨SEG_LINETO, mkRat 4 1, mkRat 0 1⟩, ⟨SEG_MOVETO, mkRat 1 1, mkRat 1 1⟩,
            ⟨SEG_LINETO, mkRat 2 1, mkRat 1 1⟩]
        ∧ (s.data).count '(' = moveCount [⟨SEG_MOVETO, mkRat 0 1, mkRat 0 1⟩,
            ⟨SEG_LINETO, mkRat 4 1, mkRat 0 1⟩, ⟨SEG_MOVETO, mkRat 1 1, mkRat 1 1⟩,
            ⟨SEG_LINETO, mkRat 2 1, mkRat 1 1⟩] + 1
        ∧ (s.data).count ')' = moveCount [⟨SEG_MOVETO, mkRat 0 1, mkRat 0 1⟩,
            ⟨SEG_LINETO, mkRat 4 1, mkRat 0 1⟩, ⟨SEG_MOVETO, mkRat 1 1, mkRat 1 1⟩,
            ⟨SEG_LINETO, mkRat 2 1, mkRat 1 1⟩] + 1)
    ∧ generate (⟨Polygon, [⟨SEG_MOVETO, mkRat 0 1, mkRat 0 1⟩,
          ⟨SEG_LINETO, mkRat 4 1, mkRat 0 1⟩, ⟨SEG_MOVETO, mkRat 1 1, mkRat 1 1⟩,
          ⟨SEG_LINETO, mkRat 2 1, mkRat 1 1⟩]⟩ : geometry_type)
        = some ("Polygon((0.0 0.0,4.0 0.0),(1.0 1.0,2.0 1.0))") :=
  ⟨rfl, by decide, polygon_ring_structure _ rfl (by decide), by decide⟩

/-- Claim C4 counterexample: the exactly-6-digits property is false of
the program — `coordinate_policy` overrides only `floatfield` and
`precision`, inheriting karma `real_policies`' default
`trailing_zeros = false`, so the value 1 prints as `1.0` (not the
claimed `1.000000`) and 3/2 prints as `1.5`. -/
theorem coord_six_digits_counterexample :
    coord_type (mkRat 1 1) = ("1.0")
      ∧ coord_type (mkRat 1 1) ≠ ("1.000000")
      ∧ coord_type (mkRat 3 2) = ("1.5") :=
  ⟨by decide, by decide, by decide⟩

/-- Claim C4 (amended): for every finite coordinate (modelled as an
exact rational — every finite 64-bit float is such a rational), the
formatted coordinate is fixed-point decimal, never scientific notation:
exactly one decimal point, between 1 and 6 digit characters after it,
with trailing fraction zeros trimmed (the fraction ends in `0` only
when it is the single residual digit `0`) and no exponent marker; e.g.
the value 1 formats as `1.0`. -/
theorem coord_trimmed_fixed_digits :
    (∀ q : ℚ, ∃ a b : String,
        coord_type q = a ++ (".") ++ b
          ∧ 1 ≤ b.length ∧ b.length ≤ 6
          ∧ (∀ c ∈ b.data, c.isDigit = true)
          ∧ (b.data.reverse.head? = some '0' → b = ("0"))
          ∧ ('.' ∉ a.data)
          ∧ ((coord_type q).data).count '.' = 1
          ∧ (∀ c ∈ (coord_type q).data, c ≠ 'e' ∧ c ≠ 'E'))
      ∧ coord_type (mkRat 1 1) = ("1.0") := by
  constructor
  · intro q
    refine ⟨(if q < 0 then ("-") else ("")) ++ String.mk (natDigits
          (((q.num.natAbs * 1000000 * 2 + q.den) / (2 * q.den)) / 1000000)),
        String.mk (fracTrim (((q.num.natAbs * 1000000 * 2 + q.den) / (2 * q.den)) % 1000000)),
        rfl, ?_, fracTrim_length_le _, fracTrim_isDigit _, ?_, ?_, ?_, ?_⟩
    · exact List.length_pos.mpr (fracTrim_ne_nil _)
    · intro hh
      exact congrArg String.mk (fracTrim_trailing _ hh)
    · intro hmem
      rw [str_data_append] at hmem
      rcases List.mem_append.mp hmem with h | h
      · rcases lt_or_ge q 0 with hq | hq
        · rw [if_pos hq, data_dash] at h
          exact absurd h (by decide)
        · rw [if_neg (not_lt.mpr hq), data_empty] at h
          exact absurd h (List.not_mem_nil _)
      · have hd := natDigits_isDigit _ _ h
        revert hd
        decide
    · have hdat : (coord_type q).data
          = (if q < 0 then ("-") else ("")).data
            ++ natDigits (((q.num.natAbs * 1000000 * 2 + q.den) / (2 * q.den)) / 1000000)
            ++ ['.']
            ++ fracTrim (((q.num.natAbs * 1000000 * 2 + q.den) / (2 * q.den)) % 1000000) := rfl
      rw [hdat, List.count_append, List.count_append, List.count_append,
        count_zero_of_isDigit '.' _ (by decide) (natDigits_isDigit _),
        count_zero_of_isDigit '.' _ (by decide) (fracTrim_isDigit _)]
      have hsign : ((if q < 0 then ("-") else ("")) : String).data.count '.' = 0 := by
        rcases lt_or_ge q 0 with hq | hq
        · rw [if_pos hq]; decide
        · rw [if_neg (not_lt.mpr hq)]; decide
      rw [hsign]
      decide
    · intro c hc
      rcases coord_type_chars q c hc with h | h | h
      · refine ⟨?_, ?_⟩ <;> (rintro rfl; revert h; decide)
      all_goals (subst h; exact ⟨by decide, by decide⟩)
  · decide

/-- Claim C6 counterexample: the claim's concrete example string is
not the program's output — the formatter trims trailing fraction
zeros, so the vertices (0,0), (1,1), (2,0) print as
`LineString(0.0 0.0,1.0 1.0,2.0 0.0)`, not the claimed six-digit
string. -/
theorem linestring_six_digit_example_counterexample :
    generate (⟨LineString, [⟨SEG_MOVETO, mkRat 0 1, mkRat 0 1⟩,
        ⟨SEG_LINETO, mkRat 1 1, mkRat 1 1⟩,
        ⟨SEG_LINETO, mkRat 2 1, mkRat 0 1⟩]⟩ : geometry_type)
        = some ("LineString(0.0 0.0,1.0 1.0,2.0 0.0)")
      ∧ generate (⟨LineString, [⟨SEG_MOVETO, mkRat 0 1, mkRat 0 1⟩,
          ⟨SEG_LINETO, mkRat 1 1, mkRat 1 1⟩,
          ⟨SEG_LINETO, mkRat 2 1, mkRat 0 1⟩]⟩ : geometry_type)
        ≠ some ("LineString(0.000000 0.000000,1.000000 1.000000,2.000000 0.000000)") :=
  ⟨by decide, by decide⟩

/-- Claim C6 (amended): a LineString geometry with at least one vertex
generates `LineString(` followed by the comma-joined
`formatted-x formatted-y` pairs in exact vertex order followed by `)`;
the example vertices [(0,0),(1,1),(2,0)] yield
`LineString(0.0 0.0,1.0 1.0,2.0 0.0)` (trailing fraction zeros
trimmed). -/
theorem linestring_output (vs : List Vertex) (h : vs ≠ []) :
    generate (⟨LineString, vs⟩ : geometry_type)
      = some (("LineString(") ++ commaJoined (vs.map point_coord) ++ (")")) := by
  cases vs with
  | nil => exact absurd rfl h
  | cons v rest =>
    have hg := generate_linestring_eq (⟨LineString, v :: rest⟩ : geometry_type) rfl
      (by simp)
    rw [hg]
    have hc : (coords ((⟨LineString, v :: rest⟩ : geometry_type).vertices)).2
        = commaJoined ((v :: rest).map point_coord) := coords_eq_commaJoined rest v
    rw [hc]

/-- Claim C6 witness: the concrete LineString scenario with vertices
(0,0), (1,1), (2,0) and the program's actual (zero-trimmed) output. -/
theorem linestring_output_witness :
    (([⟨SEG_MOVETO, mkRat 0 1, mkRat 0 1⟩, ⟨SEG_LINETO, mkRat 1 1, mkRat 1 1⟩,
        ⟨SEG_LINETO, mkRat 2 1, mkRat 0 1⟩] : List Vertex) ≠ [])
      ∧ generate (⟨LineString, [⟨SEG_MOVETO, mkRat 0 1, mkRat 0 1⟩,
            ⟨SEG_LINETO, mkRat 1 1, mkRat 1 1⟩,
            ⟨SEG_LINETO, mkRat 2 1, mkRat 0 1⟩]⟩ : geometry_type)
          = some (("LineString(") ++ commaJoined
              (([⟨SEG_MOVETO, mkRat 0 1, mkRat 0 1⟩, ⟨SEG_LINETO, mkRat 1 1, mkRat 1 1⟩,
                ⟨SEG_LINETO, mkRat 2 1, mkRat 0 1⟩] : List Vertex).map point_coord) ++ (")"))
      ∧ generate (⟨LineString, [⟨SEG_MOVETO, mkRat 0 1, mkRat 0 1⟩,
            ⟨SEG_LINETO, mkRat 1 1, mkRat 1 1⟩,
            ⟨SEG_LINETO, mkRat 2 1, mkRat 0 1⟩]⟩ : geometry_type)
          = some ("LineString(0.0 0.0,1.0 1.0,2.0 0.0)") :=
  ⟨by decide, linestring_output _ (by decide), by decide⟩

/-- Claim C7 counterexample: the claim's concrete example string is
not the program's output — with trailing fraction zeros trimmed the
point (1.5, -2.25) prints as `Point(1.5 -2.25)`, not the claimed
`Point(1.500000 -2.250000)`. -/
theorem point_six_digit_example_counterexample :
    generate (⟨Point, [⟨SEG_MOVETO, mkRat 3 2, mkRat (-9) 4⟩]⟩ : geometry_type)
        = some ("Point(1.5 -2.25)")
      ∧ generate (⟨Point, [⟨SEG_MOVETO, mkRat 3 2, mkRat (-9) 4⟩]⟩ : geometry_type)
        ≠ some ("Point(1.500000 -2.250000)") :=
  ⟨by decide, by decide⟩

/-- Claim C9: a Polygon whose first vertex is tagged LineTo rather than
MoveTo does not fail: the non-MoveTo branch of `polygon_coord` emits a
literal `,` immediately after `Polygon(`, so the output begins
`Polygon(,` and no ring-opening parenthesis precedes the leading
vertices before the first MoveTo. -/
theorem polygon_first_vertex_lineto (x y : ℚ) (rest : List Vertex) :
    generate (⟨Polygon, ⟨SEG_LINETO, x, y⟩ :: rest⟩ : geometry_type)
      = some (("Polygon(,") ++ point_coord ⟨SEG_LINETO, x, y⟩
          ++ specRingBody 0 rest ++ ("))")) := by
  rw [generate_polygon_eq _ rfl]
  show some (("Polygon(") ++ (coords2 0 (⟨SEG_LINETO, x, y⟩ :: rest)).2 ++ ("))"))
      = some (("Polygon(,") ++ point_coord ⟨SEG_LINETO, x, y⟩
          ++ specRingBody 0 rest ++ ("))"))
  have h2 : (coords2 0 (⟨SEG_LINETO, x, y⟩ :: rest)).2
      = ((",") ++ point_coord ⟨SEG_LINETO, x, y⟩) ++ (coords2 0 rest).2 := by
    simp [coords2, polygon_coord, SEG_LINETO, SEG_MOVETO]
  rw [h2, coords2_eq_specRingBody]
  exact congrArg some (str_ext (by
    simp [str_data_append, data_polyopen, data_polyopenComma, data_comma,
      List.append_assoc, List.cons_append, List.nil_append]))

/-- Claim C8: the timer statistics accumulator: after any sequence of
`add(name, cpu, wall)` calls starting from an empty accumulator, the
metrics stored for each name are exactly the sums of the cpu and wall
durations passed for that name (zero for a name never seen), and a
single `add` call leaves the entry of every other name unchanged. -/
theorem timer_stats_add_accumulates :
    (∀ calls : List (String × ℚ × ℚ), ∀ name : String,
        getMetrics (runAdds calls) name = ⟨cpuSum name calls, wallSum name calls⟩)
      ∧ (∀ st : List (String × timer_metrics), ∀ name k : String, ∀ c w : ℚ,
          k ≠ name → mapFind (timer_stats_add st name c w) k = mapFind st k) := by
  constructor
  · intro calls name
    have h := runAdds_loop calls [] name
    have hz : getMetrics ([] : List (String × timer_metrics)) name = ⟨0, 0⟩ := rfl
    rw [hz] at h
    simpa [runAdds] using h
  · intro st name k c w h
    exact mapFind_add_ne st name k c w h

/-- Claim C8 witness: three interleaved calls for names `a` and `b`;
the entry for `a` is the sum of its two calls and an `add` for `b`
leaves `a` untouched. -/
theorem timer_stats_add_accumulates_witness :
    getMetrics (runAdds [(("a"), mkRat 1 1, mkRat 2 1), (("b"), mkRat 3 1, mkRat 4 1),
        (("a"), mkRat 5 1, mkRat 6 1)]) ("a") = ⟨mkRat 6 1, mkRat 8 1⟩
      ∧ (("a" : String) ≠ ("b"))
      ∧ mapFind (timer_stats_add [(("b"), ⟨mkRat 3 1, mkRat 4 1⟩)] ("b")
            (mkRat 1 1) (mkRat 1 1)) ("a")
          = mapFind [(("b"), ⟨mkRat 3 1, mkRat 4 1⟩)] ("a") :=
  ⟨(timer_stats_add_accumulates.1 [(("a"), mkRat 1 1, mkRat 2 1),
      (("b"), mkRat 3 1, mkRat 4 1), (("a"), mkRat 5 1, mkRat 6 1)] ("a")).trans
      (by with_unfolding_all decide),
   by decide,
   timer_stats_add_accumulates.2 [(("b"), ⟨mkRat 3 1, mkRat 4 1⟩)] ("b") ("a")
     (mkRat 1 1) (mkRat 1 1) (by decide)⟩

end mapnik
